import Mathlib

/-!
Verification of the DroidDock sync subsystem.

The repository is a Tauri application: a React frontend (src/App.tsx) and a
Rust backend exposing the commands invoked from the frontend.  The frontend
source is present; the Rust backend implementing the sync engine
(snapshot builder, matcher, planner, executor behind the commands
preview_sync and execute_sync) is not part of the available sources, so the
engine is modelled from the specification (section 4 of the spec) in the
Engine namespace below.  The frontend handlers and state are embedded
directly from src/App.tsx.
-/

namespace Engine

/-- Modelled from the spec: sync direction of the engine options
(spec section 3, SyncOptions).  The Rust backend source is missing; the spec
names the three directions LocalToRemote, RemoteToLocal, BothWays. -/
inductive Direction where
  | LocalToRemote
  | RemoteToLocal
  | BothWays
deriving DecidableEq, Repr

/-- Modelled from the spec: match mode of the engine options
(spec section 3), ByPath or ByContent. -/
inductive MatchMode where
  | ByPath
  | ByContent
deriving DecidableEq, Repr

/-- Modelled from the spec: the kind of a sync action
(spec section 3, SyncAction.action_type). -/
inductive ActionType where
  | Copy
  | Update
  | Delete
  | Skip
  | Rename
deriving DecidableEq, Repr

/-- Modelled from the spec: a file record produced by the snapshot builder
(spec section 3, FileRecord).  Timestamps and sizes are natural numbers. -/
structure FileRecord where
  relative_path : String
  size_bytes : Nat
  modified_time : Nat
  is_directory : Bool
  content_hash : Option String
deriving DecidableEq, Repr

/-- Modelled from the spec: a snapshot is a flat collection of file records
keyed by relative path (spec section 3, Snapshot); the path-uniqueness
invariant is stated as a hypothesis where needed. -/
abbrev Snapshot := List FileRecord

/-- Modelled from the spec: engine-level SyncOptions (spec section 3). -/
structure SyncOptions where
  local_path : String
  device_path : String
  direction : Direction
  recursive : Bool
  delete_missing : Bool
  match_mode : MatchMode
deriving DecidableEq, Repr

/-- Modelled from the spec: a single planned sync action
(spec section 3, SyncAction). -/
structure SyncAction where
  file_path : String
  action_type : ActionType
  direction : Direction
  size_bytes : Nat
  reason : String
  rename_from : Option String
deriving DecidableEq, Repr

/-- Modelled from the spec: the reconciliation plan shown to the user
(spec section 3, SyncPreview). -/
structure SyncPreview where
  actions : List SyncAction
  total_transfer_bytes : Nat
  copy_count : Nat
  update_count : Nat
  delete_count : Nat
  skip_count : Nat
  rename_count : Nat
deriving DecidableEq, Repr

/-- Modelled from the spec: a progress event emitted during execution
(spec section 3, SyncProgress). -/
structure SyncProgress where
  current_file : String
  completed_count : Nat
  total_count : Nat
  completed_bytes : Nat
  total_bytes : Nat
deriving DecidableEq, Repr

/-- Modelled from the spec: the terminal result of one execution
(spec section 3, SyncResult). -/
structure SyncResult where
  success_count : Nat
  skip_count : Nat
  error_count : Nat
  errors : List String
deriving DecidableEq, Repr

/-- Modelled from the spec: look a relative path up in a snapshot, returning
the first record with that path (spec section 4.2, path-based pairing). -/
def lookupPath : Snapshot → String → Option FileRecord
  | [], _ => none
  | r :: rest, p => if r.relative_path = p then some r else lookupPath rest p

/-- Modelled from the spec: the partition computed by the Matcher
(spec section 4.2, MatchSet), extended with the rename candidates detected
in ByContent mode. -/
structure MatchSet where
  paired : List (FileRecord × FileRecord)
  localOnly : List FileRecord
  remoteOnly : List FileRecord
  renames : List (FileRecord × FileRecord)
deriving DecidableEq, Repr

/-- Modelled from the spec: entries paired by relative-path equality
(spec section 4.2). -/
def pathPaired (loc rem : Snapshot) : List (FileRecord × FileRecord) :=
  loc.filterMap (fun l => (lookupPath rem l.relative_path).map (fun r => (l, r)))

/-- Modelled from the spec: entries present only in the local snapshot
(spec section 4.2). -/
def pathLocalOnly (loc rem : Snapshot) : List FileRecord :=
  loc.filter (fun l => (lookupPath rem l.relative_path).isNone)

/-- Modelled from the spec: entries present only in the remote snapshot
(spec section 4.2). -/
def pathRemoteOnly (loc rem : Snapshot) : List FileRecord :=
  rem.filter (fun r => (lookupPath loc r.relative_path).isNone)

/-- Modelled from the spec: extract the first unpaired record whose content
hash equals the given (present) hash, together with the remaining records
(spec section 4.2, first-unmatched-to-first-unmatched pairing). -/
def extractHashMatch (h : Option String) : List FileRecord → Option (FileRecord × List FileRecord)
  | [] => none
  | r :: rs =>
    if h ≠ none ∧ r.content_hash = h then
      some (r, rs)
    else
      match extractHashMatch h rs with
      | some (m, rest) => some (m, r :: rest)
      | none => none

/-- Modelled from the spec: greedy content-hash pairing of the unpaired
local-only and remote-only records; returns the rename candidates and the
records left unpaired on each side (spec section 4.2, ByContent mode). -/
def matchRenames : List FileRecord → List FileRecord →
    List (FileRecord × FileRecord) × List FileRecord × List FileRecord
  | [], rs => ([], [], rs)
  | l :: ls, rs =>
    match extractHashMatch l.content_hash rs with
    | some (r, rest) =>
      let t := matchRenames ls rest
      ((l, r) :: t.1, t.2.1, t.2.2)
    | none =>
      let t := matchRenames ls rs
      (t.1, l :: t.2.1, t.2.2)

/-- Modelled from the spec: sort records by ascending relative path, the
deterministic tie-break for rename candidates (spec section 4.2). -/
def sortByPath (l : List FileRecord) : List FileRecord :=
  List.insertionSort (fun a b => a.relative_path ≤ b.relative_path) l

/-- Modelled from the spec: the Matcher (spec section 4.2).  In ByPath mode
only path-based pairing is performed; in ByContent mode the unpaired sides
are additionally scanned, in ascending path order, for equal content
hashes, producing rename candidates. -/
def matchSnapshots (loc rem : Snapshot) (mode : MatchMode) : MatchSet :=
  match mode with
  | .ByPath => ⟨pathPaired loc rem, pathLocalOnly loc rem, pathRemoteOnly loc rem, []⟩
  | .ByContent =>
    let t := matchRenames (sortByPath (pathLocalOnly loc rem)) (sortByPath (pathRemoteOnly loc rem))
    ⟨pathPaired loc rem, t.2.1, t.2.2, t.1⟩

/-- Modelled from the spec: the direction recorded on a Skip action (the
options direction, collapsed to a one-way direction for BothWays). -/
def skipDirection : Direction → Direction
  | .RemoteToLocal => .RemoteToLocal
  | _ => .LocalToRemote

/-- Modelled from the spec: the Planner rule for a paired entry
(spec section 4.3): equal size and timestamp yields a Skip with reason
already in sync; otherwise an Update directed by the options, with
newer-wins for BothWays. -/
def planPair (dir : Direction) (pr : FileRecord × FileRecord) : SyncAction :=
  if pr.1.size_bytes = pr.2.size_bytes ∧ pr.1.modified_time = pr.2.modified_time then
    { file_path := pr.1.relative_path, action_type := .Skip, direction := skipDirection dir,
      size_bytes := pr.1.size_bytes, reason := "already in sync", rename_from := none }
  else
    match dir with
    | .LocalToRemote =>
      { file_path := pr.1.relative_path, action_type := .Update, direction := .LocalToRemote,
        size_bytes := pr.1.size_bytes, reason := "differs from remote", rename_from := none }
    | .RemoteToLocal =>
      { file_path := pr.2.relative_path, action_type := .Update, direction := .RemoteToLocal,
        size_bytes := pr.2.size_bytes, reason := "differs from local", rename_from := none }
    | .BothWays =>
      if pr.2.modified_time ≤ pr.1.modified_time then
        { file_path := pr.1.relative_path, action_type := .Update, direction := .LocalToRemote,
          size_bytes := pr.1.size_bytes, reason := "local is newer", rename_from := none }
      else
        { file_path := pr.2.relative_path, action_type := .Update, direction := .RemoteToLocal,
          size_bytes := pr.2.size_bytes, reason := "remote is newer", rename_from := none }

/-- Modelled from the spec: the Planner rule for a rename candidate
(spec section 4.3): a single Rename action with rename_from set, oriented
by the sync direction (newer side wins for BothWays). -/
def planRename (dir : Direction) (pr : FileRecord × FileRecord) : SyncAction :=
  match dir with
  | .LocalToRemote =>
    { file_path := pr.1.relative_path, action_type := .Rename, direction := .LocalToRemote,
      size_bytes := pr.1.size_bytes, reason := "same content, renamed",
      rename_from := some pr.2.relative_path }
  | .RemoteToLocal =>
    { file_path := pr.2.relative_path, action_type := .Rename, direction := .RemoteToLocal,
      size_bytes := pr.2.size_bytes, reason := "same content, renamed",
      rename_from := some pr.1.relative_path }
  | .BothWays =>
    if pr.2.modified_time ≤ pr.1.modified_time then
      { file_path := pr.1.relative_path, action_type := .Rename, direction := .LocalToRemote,
        size_bytes := pr.1.size_bytes, reason := "same content, renamed",
        rename_from := some pr.2.relative_path }
    else
      { file_path := pr.2.relative_path, action_type := .Rename, direction := .RemoteToLocal,
        size_bytes := pr.2.size_bytes, reason := "same content, renamed",
        rename_from := some pr.1.relative_path }

/-- Modelled from the spec: the Planner rule for a local-only entry
(spec section 4.3): Copy toward remote under LocalToRemote and BothWays
(never delete), Delete under RemoteToLocal only when delete_missing. -/
def planLocalOnly (dir : Direction) (deleteMissing : Bool) (l : FileRecord) : Option SyncAction :=
  match dir with
  | .LocalToRemote =>
    some { file_path := l.relative_path, action_type := .Copy, direction := .LocalToRemote,
           size_bytes := l.size_bytes, reason := "missing on remote", rename_from := none }
  | .RemoteToLocal =>
    if deleteMissing then
      some { file_path := l.relative_path, action_type := .Delete,
             direction := .RemoteToLocal, size_bytes := l.size_bytes,
             reason := "missing on remote, delete enabled", rename_from := none }
    else none
  | .BothWays =>
    some { file_path := l.relative_path, action_type := .Copy, direction := .LocalToRemote,
           size_bytes := l.size_bytes, reason := "missing on remote", rename_from := none }

/-- Modelled from the spec: the symmetric Planner rule for a remote-only
entry (spec sections 4.3 and 8). -/
def planRemoteOnly (dir : Direction) (deleteMissing : Bool) (r : FileRecord) : Option SyncAction :=
  match dir with
  | .RemoteToLocal =>
    some { file_path := r.relative_path, action_type := .Copy, direction := .RemoteToLocal,
           size_bytes := r.size_bytes, reason := "missing on local", rename_from := none }
  | .LocalToRemote =>
    if deleteMissing then
      some { file_path := r.relative_path, action_type := .Delete,
             direction := .LocalToRemote, size_bytes := r.size_bytes,
             reason := "missing on local source, delete enabled", rename_from := none }
    else none
  | .BothWays =>
    some { file_path := r.relative_path, action_type := .Copy, direction := .RemoteToLocal,
           size_bytes := r.size_bytes, reason := "missing on local", rename_from := none }

/-- Modelled from the spec: the bytes an action contributes to the transfer
total when it is emitted: its size for Copy and Update, nothing otherwise
(spec section 3, SyncPreview invariant source). -/
def transferBytes (a : SyncAction) : Nat :=
  match a.action_type with
  | .Copy => a.size_bytes
  | .Update => a.size_bytes
  | _ => 0

/-- Modelled from the spec: count the actions of one kind in a plan. -/
def countType (acts : List SyncAction) (t : ActionType) : Nat :=
  acts.countP (fun a => a.action_type == t)

/-- Modelled from the spec: the delete_missing flag actually honored by the
Planner, cleared whenever direction is BothWays (spec sections 3 and 4.3). -/
def effectiveDeleteMissing (opts : SyncOptions) : Bool :=
  if opts.direction = .BothWays then false else opts.delete_missing

/-- Modelled from the spec: the ordered action list of a plan, batched as
paired comparisons, renames, local-only and remote-only handling
(spec section 4.3). -/
def planActions (ms : MatchSet) (dir : Direction) (deleteMissing : Bool) : List SyncAction :=
  ms.paired.map (planPair dir)
    ++ ms.renames.map (planRename dir)
    ++ ms.localOnly.filterMap (planLocalOnly dir deleteMissing)
    ++ ms.remoteOnly.filterMap (planRemoteOnly dir deleteMissing)

/-- Modelled from the spec: the Differ/Planner (spec section 4.3),
producing the action list and the aggregate statistics. -/
def plan (ms : MatchSet) (opts : SyncOptions) : SyncPreview :=
  { actions := planActions ms opts.direction (effectiveDeleteMissing opts)
    total_transfer_bytes :=
      ((planActions ms opts.direction (effectiveDeleteMissing opts)).map transferBytes).sum
    copy_count := countType (planActions ms opts.direction (effectiveDeleteMissing opts)) .Copy
    update_count := countType (planActions ms opts.direction (effectiveDeleteMissing opts)) .Update
    delete_count := countType (planActions ms opts.direction (effectiveDeleteMissing opts)) .Delete
    skip_count := countType (planActions ms opts.direction (effectiveDeleteMissing opts)) .Skip
    rename_count := countType (planActions ms opts.direction (effectiveDeleteMissing opts)) .Rename }

/-- Modelled from the spec: the preview entry point (spec section 6),
with the two snapshots taken as inputs since snapshot building is I/O. -/
def preview_sync (loc rem : Snapshot) (opts : SyncOptions) : SyncPreview :=
  plan (matchSnapshots loc rem opts.match_mode) opts

/-- Modelled from the spec: the message recorded for a failed action
(spec section 4.4). -/
def formatError (a : SyncAction) (e : String) : String :=
  a.file_path ++ ": " ++ e

/-- Modelled from the spec: the Executor (spec section 4.4).  Skip actions
pass through without a transfer; a failing transfer is recorded and
execution proceeds to the next action. -/
def execute_sync : List SyncAction → (SyncAction → Except String Unit) → SyncResult
  | [], _ => { success_count := 0, skip_count := 0, error_count := 0, errors := [] }
  | a :: rest, transfer =>
    let res := execute_sync rest transfer
    if a.action_type = .Skip then
      { res with skip_count := res.skip_count + 1 }
    else
      match transfer a with
      | .ok _ => { res with success_count := res.success_count + 1 }
      | .error e =>
        { res with error_count := res.error_count + 1, errors := formatError a e :: res.errors }

end Engine

/-!
Frontend embedding.  The following definitions are translated from
src/App.tsx: the sync-related interfaces (lines 36-79), the sync dialog
state (lines 465-466 and 550-562) and the sync handlers (lines 2137-2231).
-/

/-- Sync direction as declared in the frontend (App.tsx line 36). -/
inductive SyncDirection where
  | PhoneToComputer
  | ComputerToPhone
  | BothWays
deriving DecidableEq, Repr

/-- The two values of the syncMatchMode state (App.tsx line 562). -/
inductive UIMatchMode where
  | filename
  | content
deriving DecidableEq, Repr

/-- The string the frontend stores in SyncOptions.match_mode for each
syncMatchMode state value (App.tsx lines 2176, 3298, 3307). -/
def UIMatchMode.toStr : UIMatchMode → String
  | .filename => "filename"
  | .content => "content"

/-- The sync dialog step state (App.tsx line 561). -/
inductive SyncStep where
  | config
  | preview
  | progress
  | result
deriving DecidableEq, Repr

/-- The SyncOptions interface of the frontend (App.tsx lines 38-45);
match_mode is a plain string there. -/
structure SyncOptions where
  local_path : String
  device_path : String
  direction : SyncDirection
  recursive : Bool
  delete_missing : Bool
  match_mode : String
deriving DecidableEq, Repr

/-- The sync-related slice of the App component state (App.tsx lines
465-466 and 550-562).  The preview, progress and result values delivered
by the backend share the shapes of the engine records. -/
structure AppState where
  selectedDevice : String
  currentPath : String
  syncDialogOpen : Bool
  syncLocalPath : String
  syncDevicePath : String
  syncDirection : SyncDirection
  syncRecursive : Bool
  syncDeleteMissing : Bool
  syncPreview : Option Engine.SyncPreview
  syncPreviewing : Bool
  syncing : Bool
  syncProgress : Option Engine.SyncProgress
  syncResult : Option Engine.SyncResult
  syncStep : SyncStep
  syncMatchMode : UIMatchMode
deriving Repr

/-- handleOpenSyncDialog (App.tsx lines 2137-2149): reset the whole sync
session to its defaults and open the dialog. -/
def handleOpenSyncDialog (s : AppState) : AppState :=
  { s with
    syncDevicePath := s.currentPath
    syncLocalPath := ""
    syncDirection := .PhoneToComputer
    syncRecursive := false
    syncDeleteMissing := false
    syncPreview := none
    syncResult := none
    syncProgress := none
    syncStep := .config
    syncMatchMode := .filename
    syncDialogOpen := true }

/-- The SyncOptions payload the frontend builds from its state
(App.tsx lines 2170-2177 and 2202-2209). -/
def syncOptionsOfState (s : AppState) : SyncOptions :=
  { local_path := s.syncLocalPath
    device_path := s.syncDevicePath
    direction := s.syncDirection
    recursive := s.syncRecursive
    delete_missing := s.syncDeleteMissing
    match_mode := s.syncMatchMode.toStr }

/-- handlePreviewSync (App.tsx lines 2165-2189), modelled as the options
payload passed to the backend invocation of preview_sync; none means the
handler returned before invoking the backend (the guard on line 2166,
where an empty string is falsy). -/
def handlePreviewSync (s : AppState) : Option SyncOptions :=
  if s.syncLocalPath = "" ∨ s.syncDevicePath = "" ∨ s.selectedDevice = "" then none
  else some (syncOptionsOfState s)

/-- handleExecuteSync (App.tsx lines 2191-2223), modelled as the options
payload passed to the backend invocation of execute_sync; none means the
handler returned before invoking the backend (the guard on line 2192). -/
def handleExecuteSync (s : AppState) : Option SyncOptions :=
  if s.syncLocalPath = "" ∨ s.syncDevicePath = "" ∨ s.selectedDevice = "" then none
  else some (syncOptionsOfState s)

/-- handleCloseSyncDialog (App.tsx lines 2225-2231): a no-op while syncing;
otherwise closes the dialog and reloads the file list (the returned flag)
exactly when the stored result has a positive success_count. -/
def handleCloseSyncDialog (s : AppState) : AppState × Bool :=
  if s.syncing then (s, false)
  else
    ({ s with syncDialogOpen := false },
      match s.syncResult with
      | some r => decide (0 < r.success_count)
      | none => false)

/-- The correspondence between the frontend direction names and the spec
direction names: the computer side is the local side and the phone side is
the remote side. -/
def directionOfUI : SyncDirection → Engine.Direction
  | .ComputerToPhone => .LocalToRemote
  | .PhoneToComputer => .RemoteToLocal
  | .BothWays => .BothWays

/-- The inverse direction correspondence. -/
def uiOfDirection : Engine.Direction → SyncDirection
  | .LocalToRemote => .ComputerToPhone
  | .RemoteToLocal => .PhoneToComputer
  | .BothWays => .BothWays

/-- The correspondence between the frontend match-mode values and the spec
match modes: filename matching is ByPath, content matching is ByContent. -/
def matchModeOfUI : UIMatchMode → Engine.MatchMode
  | .filename => .ByPath
  | .content => .ByContent

/-- The inverse match-mode correspondence. -/
def uiOfMatchMode : Engine.MatchMode → UIMatchMode
  | .ByPath => .filename
  | .ByContent => .content

/-!
Theorems.  Each claim theorem is stated over the definitions above.
-/

/-- C10: every invocation of handleOpenSyncDialog resets the entire sync
session to the fixed default configuration regardless of prior state:
device path becomes the current browsing path, local path the empty
string, direction PhoneToComputer, recursive and delete_missing false,
match mode filename, preview, result and progress cleared, the step set to
config, and the dialog opened. -/
theorem open_sync_dialog_resets (s : AppState) :
    (handleOpenSyncDialog s).syncDevicePath = s.currentPath
    ∧ (handleOpenSyncDialog s).syncLocalPath = ""
    ∧ (handleOpenSyncDialog s).syncDirection = SyncDirection.PhoneToComputer
    ∧ (handleOpenSyncDialog s).syncRecursive = false
    ∧ (handleOpenSyncDialog s).syncDeleteMissing = false
    ∧ (handleOpenSyncDialog s).syncMatchMode = UIMatchMode.filename
    ∧ (handleOpenSyncDialog s).syncPreview = none
    ∧ (handleOpenSyncDialog s).syncResult = none
    ∧ (handleOpenSyncDialog s).syncProgress = none
    ∧ (handleOpenSyncDialog s).syncStep = SyncStep.config
    ∧ (handleOpenSyncDialog s).syncDialogOpen = true :=
  ⟨rfl, rfl, rfl, rfl, rfl, rfl, rfl, rfl, rfl, rfl, rfl⟩

/-- C4: SyncOptions is the complete configuration surface: a value is
exactly its six fields (local_path, device_path, direction, recursive,
delete_missing, match_mode); the direction domain has exactly the three
values, in bijection with the spec names LocalToRemote, RemoteToLocal and
BothWays; and the match-mode state has exactly the two values, in
bijection with ByPath and ByContent, serialized as filename and content. -/
theorem sync_options_complete_surface :
    (∀ o : SyncOptions,
      o = ⟨o.local_path, o.device_path, o.direction, o.recursive,
           o.delete_missing, o.match_mode⟩)
    ∧ (∀ d : SyncDirection, d = SyncDirection.PhoneToComputer
        ∨ d = SyncDirection.ComputerToPhone ∨ d = SyncDirection.BothWays)
    ∧ (∀ d : SyncDirection, uiOfDirection (directionOfUI d) = d)
    ∧ (∀ e : Engine.Direction, directionOfUI (uiOfDirection e) = e)
    ∧ (∀ m : UIMatchMode, uiOfMatchMode (matchModeOfUI m) = m)
    ∧ (∀ e : Engine.MatchMode, matchModeOfUI (uiOfMatchMode e) = e)
    ∧ (∀ m : UIMatchMode, m.toStr = "filename" ∨ m.toStr = "content") := by
  refine ⟨fun o => rfl, ?_, ?_, ?_, ?_, ?_, ?_⟩ <;> intro x <;> cases x <;> simp
    [uiOfDirection, directionOfUI, uiOfMatchMode, matchModeOfUI, UIMatchMode.toStr]

/-- C8: a configuration with an empty local path, an empty device path, or
no selected device is rejected by the frontend guards before any backend
invocation: handlePreviewSync and handleExecuteSync both return without
calling preview_sync or execute_sync. -/
theorem empty_paths_rejected (s : AppState) :
    handlePreviewSync { s with syncLocalPath := "" } = none
    ∧ handleExecuteSync { s with syncLocalPath := "" } = none
    ∧ handlePreviewSync { s with syncDevicePath := "" } = none
    ∧ handleExecuteSync { s with syncDevicePath := "" } = none
    ∧ handlePreviewSync { s with selectedDevice := "" } = none
    ∧ handleExecuteSync { s with selectedDevice := "" } = none := by
  refine ⟨?_, ?_, ?_, ?_, ?_, ?_⟩ <;> simp [handlePreviewSync, handleExecuteSync]

/-- C9: while syncing is true, handleCloseSyncDialog is a no-op (the state
is returned unchanged and no reload happens); once syncing is false it
closes the dialog, and the file list reload flag is set exactly when the
stored SyncResult has success_count greater than zero. -/
theorem close_sync_dialog_guard (s : AppState) (r : Engine.SyncResult) :
    handleCloseSyncDialog { s with syncing := true } = ({ s with syncing := true }, false)
    ∧ (handleCloseSyncDialog { s with syncing := false }).1
        = { s with syncing := false, syncDialogOpen := false }
    ∧ (handleCloseSyncDialog { s with syncing := false, syncResult := some r }).2
        = decide (0 < r.success_count)
    ∧ (handleCloseSyncDialog { s with syncing := false, syncResult := none }).2 = false := by
  refine ⟨?_, ?_, ?_, ?_⟩ <;> simp [handleCloseSyncDialog]

namespace Engine

/-- Summing the transfer contribution of every action equals summing the
sizes of exactly the Copy and Update actions. -/
theorem transferBytes_filter_sum (acts : List SyncAction) :
    (acts.map transferBytes).sum
      = ((acts.filter (fun a => a.action_type == ActionType.Copy
            || a.action_type == ActionType.Update)).map
          (fun a => a.size_bytes)).sum := by
  induction acts with
  | nil => rfl
  | cons a rest ih =>
    simp only [List.map_cons, List.sum_cons, List.filter_cons]
    cases h : a.action_type <;> simp [transferBytes, h, ih]

/-- C2: for every SyncPreview produced by planning, total_transfer_bytes
equals the sum of the size field over exactly those actions whose type is
Copy or Update; Delete, Skip and Rename actions contribute nothing. -/
theorem plan_total_transfer_invariant (ms : MatchSet) (opts : SyncOptions) :
    (plan ms opts).total_transfer_bytes
      = (((plan ms opts).actions.filter
            (fun a => a.action_type == ActionType.Copy
              || a.action_type == ActionType.Update)).map
          (fun a => a.size_bytes)).sum :=
  transferBytes_filter_sum _

end Engine

namespace Engine

/-- A paired entry is always planned as a Skip or an Update. -/
theorem planPair_skip_or_update (d : Direction) (pr : FileRecord × FileRecord) :
    (planPair d pr).action_type = ActionType.Skip
      ∨ (planPair d pr).action_type = ActionType.Update := by
  unfold planPair
  split
  · exact Or.inl rfl
  · cases d
    · exact Or.inr rfl
    · exact Or.inr rfl
    · dsimp only
      split <;> exact Or.inr rfl

/-- A rename candidate is always planned as a Rename action. -/
theorem planRename_type (d : Direction) (pr : FileRecord × FileRecord) :
    (planRename d pr).action_type = ActionType.Rename := by
  unfold planRename
  cases d
  · rfl
  · rfl
  · dsimp only
    split <;> rfl

/-- Under BothWays no planned action is a Delete, whatever the honored
delete flag is. -/
theorem planActions_bothWays_no_delete (ms : MatchSet) (dm : Bool) (a : SyncAction)
    (ha : a ∈ planActions ms .BothWays dm) : ¬ a.action_type = ActionType.Delete := by
  unfold planActions at ha
  rcases List.mem_append.mp ha with h123 | h4
  · rcases List.mem_append.mp h123 with h12 | h3
    · rcases List.mem_append.mp h12 with h1 | h2
      · rcases List.mem_map.mp h1 with ⟨p, _, rfl⟩
        rcases planPair_skip_or_update .BothWays p with h | h <;> simp [h]
      · rcases List.mem_map.mp h2 with ⟨p, _, rfl⟩
        simp [planRename_type]
    · rcases List.mem_filterMap.mp h3 with ⟨l, _, hl⟩
      simp only [planLocalOnly, Option.some.injEq] at hl
      rw [← hl]
      simp
  · rcases List.mem_filterMap.mp h4 with ⟨r, _, hr⟩
    simp only [planRemoteOnly, Option.some.injEq] at hr
    rw [← hr]
    simp

/-- C1: for every sync session whose direction is BothWays the resulting
preview contains no Delete action, regardless of the delete_missing flag
the caller passes in; the Planner itself forces the honored delete flag to
false (effectiveDeleteMissing) rather than relying on the caller. -/
theorem bothWays_preview_never_deletes (ms : MatchSet) (opts : SyncOptions) :
    effectiveDeleteMissing { opts with direction := Direction.BothWays } = false
    ∧ ((plan ms { opts with direction := Direction.BothWays }).actions.filter
        (fun a => a.action_type == ActionType.Delete)) = []
    ∧ (plan ms { opts with direction := Direction.BothWays }).delete_count = 0 := by
  refine ⟨rfl, ?_, ?_⟩
  · rw [List.filter_eq_nil_iff]
    intro a ha
    have hd := planActions_bothWays_no_delete ms
      (effectiveDeleteMissing { opts with direction := Direction.BothWays }) a ha
    simpa using hd
  · rw [show (plan ms { opts with direction := Direction.BothWays }).delete_count
        = countType (planActions ms Direction.BothWays
          (effectiveDeleteMissing { opts with direction := Direction.BothWays }))
          ActionType.Delete from rfl]
    rw [countType, List.countP_eq_zero]
    intro a ha
    have hd := planActions_bothWays_no_delete ms
      (effectiveDeleteMissing { opts with direction := Direction.BothWays }) a ha
    simpa using hd

end Engine

namespace Engine

/-- A paired entry is planned without a rename_from field. -/
theorem planPair_rename_from (d : Direction) (pr : FileRecord × FileRecord) :
    (planPair d pr).rename_from = none := by
  unfold planPair
  split
  · rfl
  · cases d
    · rfl
    · rfl
    · dsimp only
      split <;> rfl

/-- A local-only entry is planned without a rename_from field. -/
theorem planLocalOnly_rename_from (d : Direction) (dm : Bool) (l : FileRecord)
    (a : SyncAction) (h : planLocalOnly d dm l = some a) : a.rename_from = none := by
  cases d <;> simp only [planLocalOnly] at h
  · rw [← Option.some.injEq _ _ |>.mp h]
  · split at h
    · rw [← Option.some.injEq _ _ |>.mp h]
    · cases h
  · rw [← Option.some.injEq _ _ |>.mp h]

/-- A remote-only entry is planned without a rename_from field. -/
theorem planRemoteOnly_rename_from (d : Direction) (dm : Bool) (r : FileRecord)
    (a : SyncAction) (h : planRemoteOnly d dm r = some a) : a.rename_from = none := by
  cases d <;> simp only [planRemoteOnly] at h
  · split at h
    · rw [← Option.some.injEq _ _ |>.mp h]
    · cases h
  · rw [← Option.some.injEq _ _ |>.mp h]
  · rw [← Option.some.injEq _ _ |>.mp h]

/-- Within a plan, only Rename actions carry a rename_from value. -/
theorem planActions_rename_from_only_rename (ms : MatchSet) (d : Direction) (dm : Bool)
    (a : SyncAction) (ha : a ∈ planActions ms d dm) (hr : ¬ a.rename_from = none) :
    a.action_type = ActionType.Rename := by
  unfold planActions at ha
  rcases List.mem_append.mp ha with h123 | h4
  · rcases List.mem_append.mp h123 with h12 | h3
    · rcases List.mem_append.mp h12 with h1 | h2
      · rcases List.mem_map.mp h1 with ⟨p, _, rfl⟩
        exact absurd (planPair_rename_from d p) hr
      · rcases List.mem_map.mp h2 with ⟨p, _, rfl⟩
        exact planRename_type d p
    · rcases List.mem_filterMap.mp h3 with ⟨l, _, hl⟩
      exact absurd (planLocalOnly_rename_from d dm l a hl) hr
  · rcases List.mem_filterMap.mp h4 with ⟨r, _, hrr⟩
    exact absurd (planRemoteOnly_rename_from d dm r a hrr) hr

/-- Canonical local record for the rename-detection scenario: the only
local file a.txt with content hash H. -/
def recHashA : FileRecord :=
  { relative_path := "a.txt", size_bytes := 5, modified_time := 100,
    is_directory := false, content_hash := some "H" }

/-- Canonical remote record for the rename-detection scenario: the only
remote file b.txt with the same content hash H. -/
def recHashB : FileRecord :=
  { relative_path := "b.txt", size_bytes := 5, modified_time := 100,
    is_directory := false, content_hash := some "H" }

/-- ByContent options directed RemoteToLocal. -/
def optsContentR2L : SyncOptions :=
  { local_path := "/sync", device_path := "/sdcard", direction := .RemoteToLocal,
    recursive := true, delete_missing := false, match_mode := .ByContent }

/-- ByContent options directed LocalToRemote. -/
def optsContentL2R : SyncOptions :=
  { local_path := "/sync", device_path := "/sdcard", direction := .LocalToRemote,
    recursive := true, delete_missing := false, match_mode := .ByContent }

/-- C5: under ByContent matching, with local a.txt and remote b.txt
sharing hash H, the plan holds exactly one Rename action pairing the two
names (oriented by the direction) and no Copy or Delete action at all; and
in any plan whatsoever rename_from is populated only on Rename actions. -/
theorem rename_detected_by_content :
    ((preview_sync [recHashA] [recHashB] optsContentR2L).actions.map
        (fun a => (a.action_type, a.file_path, a.rename_from))
      = [(ActionType.Rename, "b.txt", some "a.txt")])
    ∧ (preview_sync [recHashA] [recHashB] optsContentR2L).rename_count = 1
    ∧ (preview_sync [recHashA] [recHashB] optsContentR2L).copy_count = 0
    ∧ (preview_sync [recHashA] [recHashB] optsContentR2L).delete_count = 0
    ∧ ((preview_sync [recHashA] [recHashB] optsContentL2R).actions.map
        (fun a => (a.action_type, a.file_path, a.rename_from))
      = [(ActionType.Rename, "a.txt", some "b.txt")])
    ∧ (preview_sync [recHashA] [recHashB] optsContentL2R).rename_count = 1
    ∧ (preview_sync [recHashA] [recHashB] optsContentL2R).copy_count = 0
    ∧ (preview_sync [recHashA] [recHashB] optsContentL2R).delete_count = 0
    ∧ (∀ (ms : MatchSet) (opts : SyncOptions),
        (plan ms opts).actions.filter
          (fun a => !(a.rename_from == none) && !(a.action_type == ActionType.Rename)) = []) := by
  refine ⟨by decide, by decide, by decide, by decide, by decide, by decide, by decide,
    by decide, ?_⟩
  intro ms opts
  rw [List.filter_eq_nil_iff]
  intro a ha
  simp only [Bool.and_eq_true, Bool.not_eq_eq_eq_not, Bool.not_true, beq_eq_false_iff_ne,
    ne_eq, not_and]
  intro hrf
  have := planActions_rename_from_only_rename ms opts.direction
    (effectiveDeleteMissing opts) a ha hrf
  simp [this]

end Engine

namespace Engine

/-- Every action of a plan is accounted for in the result: the success,
skip and error counts always add up to the number of actions, so no single
failure aborts the run. -/
theorem execute_sync_accounts (acts : List SyncAction)
    (tr : SyncAction → Except String Unit) :
    (execute_sync acts tr).success_count + (execute_sync acts tr).skip_count
      + (execute_sync acts tr).error_count = acts.length := by
  induction acts with
  | nil => rfl
  | cons a rest ih =>
    simp only [execute_sync, List.length_cons]
    split
    · simpa using by omega
    · cases tr a
      · simp only []
        omega
      · simp only []
        omega

/-- C3: for every plan of three non-Skip actions where the injected
transfer collaborator fails on the second action only, execute_sync does
not abort and returns success_count 2, error_count 1, skip_count 0 and a
single formatted error; and in general every action is accounted for, so
execution always proceeds past a failure. -/
theorem executor_partial_failure (a1 a2 a3 : SyncAction)
    (transfer : SyncAction → Except String Unit) (e : String)
    (h1 : a1.action_type ≠ ActionType.Skip) (h2 : a2.action_type ≠ ActionType.Skip)
    (h3 : a3.action_type ≠ ActionType.Skip)
    (t1 : transfer a1 = .ok ()) (t2 : transfer a2 = .error e) (t3 : transfer a3 = .ok ()) :
    execute_sync [a1, a2, a3] transfer
      = { success_count := 2, skip_count := 0, error_count := 1,
          errors := [formatError a2 e] }
    ∧ (∀ (acts : List SyncAction) (tr : SyncAction → Except String Unit),
        (execute_sync acts tr).success_count + (execute_sync acts tr).skip_count
          + (execute_sync acts tr).error_count = acts.length) := by
  refine ⟨?_, execute_sync_accounts⟩
  simp only [execute_sync, if_neg h1, if_neg h2, if_neg h3, t1, t2, t3]

/-- First action of the executor witness scenario. -/
def wact1 : SyncAction :=
  { file_path := "p.jpg", action_type := .Copy, direction := .LocalToRemote,
    size_bytes := 10, reason := "missing on remote", rename_from := none }

/-- Second action of the executor witness scenario, the failing one. -/
def wact2 : SyncAction :=
  { file_path := "q.jpg", action_type := .Copy, direction := .LocalToRemote,
    size_bytes := 5, reason := "missing on remote", rename_from := none }

/-- Third action of the executor witness scenario. -/
def wact3 : SyncAction :=
  { file_path := "r.jpg", action_type := .Copy, direction := .LocalToRemote,
    size_bytes := 2, reason := "missing on remote", rename_from := none }

/-- A transfer collaborator that fails exactly on q.jpg. -/
def wtransfer : SyncAction → Except String Unit :=
  fun a => if a.file_path = "q.jpg" then .error "device disconnected" else .ok ()

/-- Witness for C3: the three-action scenario evaluated concretely. -/
theorem executor_partial_failure_witness :
    execute_sync [wact1, wact2, wact3] wtransfer
      = { success_count := 2, skip_count := 0, error_count := 1,
          errors := ["q.jpg: device disconnected"] } :=
  (executor_partial_failure wact1 wact2 wact3 wtransfer "device disconnected"
    (by decide) (by decide) (by decide) rfl rfl rfl).1

end Engine

namespace Engine

/-- Matching two singleton snapshots whose records share a relative path
pairs them, leaving nothing unpaired and no rename candidate. -/
theorem matchSnapshots_single_pair (l r : FileRecord) (mode : MatchMode)
    (hp : l.relative_path = r.relative_path) :
    matchSnapshots [l] [r] mode = ⟨[(l, r)], [], [], []⟩ := by
  have hlr : lookupPath [r] l.relative_path = some r := by
    simp [lookupPath, hp]
  have hrl : lookupPath [l] r.relative_path = some l := by
    simp [lookupPath, hp]
  cases mode <;>
    simp [matchSnapshots, pathPaired, pathLocalOnly, pathRemoteOnly, hlr, hrl,
      sortByPath, List.insertionSort, matchRenames]

/-- Under BothWays a strictly newer local record yields the update toward
the remote side. -/
theorem planPair_bothWays_local_newer (l r : FileRecord)
    (hlt : r.modified_time < l.modified_time) :
    planPair .BothWays (l, r)
      = { file_path := l.relative_path, action_type := .Update,
          direction := .LocalToRemote, size_bytes := l.size_bytes,
          reason := "local is newer", rename_from := none } := by
  unfold planPair
  dsimp only
  rw [if_neg (fun h => Nat.lt_irrefl _ (h.2 ▸ hlt)), if_pos (Nat.le_of_lt hlt)]

/-- Equal sizes and timestamps yield the Skip action with reason already
in sync, for every direction. -/
theorem planPair_in_sync (d : Direction) (l r : FileRecord)
    (hs : l.size_bytes = r.size_bytes) (ht : l.modified_time = r.modified_time) :
    planPair d (l, r)
      = { file_path := l.relative_path, action_type := .Skip,
          direction := skipDirection d, size_bytes := l.size_bytes,
          reason := "already in sync", rename_from := none } := by
  unfold planPair
  dsimp only
  rw [if_pos ⟨hs, ht⟩]

/-- C6: under BothWays, a paired entry whose local record is strictly more
recently modified (time t + k + 1 against t) plans to exactly one Update
action for that path directed LocalToRemote; and when timestamps and sizes
are equal it plans to exactly one Skip action with reason already in sync.
Stated for every path, size, flag and hash, and every match mode. -/
theorem bothWays_newer_wins
    (p : String) (sz1 sz2 t k : Nat) (d1 d2 : Bool) (h1 h2 : Option String)
    (lp dp : String) (rc dl : Bool) (mm : MatchMode) :
    ((preview_sync [⟨p, sz1, t + k + 1, d1, h1⟩] [⟨p, sz2, t, d2, h2⟩]
        ⟨lp, dp, .BothWays, rc, dl, mm⟩).actions.map
        (fun a => (a.action_type, a.direction, a.file_path))
      = [(ActionType.Update, Direction.LocalToRemote, p)])
    ∧ ((preview_sync [⟨p, sz1, t, d1, h1⟩] [⟨p, sz1, t, d2, h2⟩]
        ⟨lp, dp, .BothWays, rc, dl, mm⟩).actions.map
        (fun a => (a.action_type, a.reason))
      = [(ActionType.Skip, "already in sync")]) := by
  constructor
  · rw [preview_sync,
      matchSnapshots_single_pair ⟨p, sz1, t + k + 1, d1, h1⟩ ⟨p, sz2, t, d2, h2⟩ mm rfl]
    simp only [plan, planActions, List.map_nil, List.filterMap_nil, List.append_nil,
      List.map_cons, List.map_nil]
    rw [planPair_bothWays_local_newer ⟨p, sz1, t + k + 1, d1, h1⟩ ⟨p, sz2, t, d2, h2⟩
      (by dsimp only; omega)]
  · rw [preview_sync,
      matchSnapshots_single_pair ⟨p, sz1, t, d1, h1⟩ ⟨p, sz1, t, d2, h2⟩ mm rfl]
    simp only [plan, planActions, List.map_nil, List.filterMap_nil, List.append_nil,
      List.map_cons, List.map_nil]
    rw [planPair_in_sync Direction.BothWays ⟨p, sz1, t, d1, h1⟩ ⟨p, sz1, t, d2, h2⟩ rfl rfl]

/-- In a snapshot with pairwise distinct relative paths, looking up the
path of a member returns that member. -/
theorem lookupPath_self (s : Snapshot) (hnd : (s.map FileRecord.relative_path).Nodup)
    (l : FileRecord) (hl : l ∈ s) : lookupPath s l.relative_path = some l := by
  induction s with
  | nil => cases hl
  | cons x rest ih =>
    rcases List.mem_cons.mp hl with rfl | hmem
    · simp [lookupPath]
    · have hx : x.relative_path ≠ l.relative_path := by
        intro he
        have hmm : l.relative_path ∈ rest.map FileRecord.relative_path :=
          List.mem_map_of_mem _ hmem
        rw [List.map_cons, List.nodup_cons] at hnd
        exact hnd.1 (he ▸ hmm)
      have hrest : (rest.map FileRecord.relative_path).Nodup := by
        rw [List.map_cons, List.nodup_cons] at hnd
        exact hnd.2
      simp [lookupPath, hx, ih hrest hmem]

/-- Membership in the path pairing: the left component is a local member
whose path looks up to the right component. -/
theorem mem_pathPaired (loc rem : Snapshot) (pr : FileRecord × FileRecord)
    (h : pr ∈ pathPaired loc rem) :
    pr.1 ∈ loc ∧ lookupPath rem pr.1.relative_path = some pr.2 := by
  rcases List.mem_filterMap.mp h with ⟨l, hl, hf⟩
  cases ho : lookupPath rem l.relative_path with
  | none => rw [ho] at hf; cases hf
  | some r =>
    rw [ho] at hf
    simp only [Option.map_some', Option.some.injEq] at hf
    rw [← hf]
    exact ⟨hl, ho⟩

/-- C7: planning is idempotent once converged: against two identical
snapshots (with the path-uniqueness snapshot invariant) every action of
the resulting preview is a Skip, for every options value — zero Copy,
Update, Delete and Rename actions. -/
theorem plan_idempotent (s : Snapshot) (opts : SyncOptions)
    (hnd : (s.map FileRecord.relative_path).Nodup) :
    ∀ a ∈ (preview_sync s s opts).actions, a.action_type = ActionType.Skip := by
  intro a ha
  have hLO : pathLocalOnly s s = [] := by
    rw [pathLocalOnly, List.filter_eq_nil_iff]
    intro l hl
    simp [lookupPath_self s hnd l hl]
  have hRO : pathRemoteOnly s s = [] := by
    rw [pathRemoteOnly, List.filter_eq_nil_iff]
    intro r hr
    simp [lookupPath_self s hnd r hr]
  have hms : matchSnapshots s s opts.match_mode = ⟨pathPaired s s, [], [], []⟩ := by
    cases opts.match_mode <;>
      simp [matchSnapshots, hLO, hRO, sortByPath, List.insertionSort, matchRenames]
  rw [preview_sync, hms] at ha
  simp only [plan, planActions, List.map_nil, List.filterMap_nil, List.append_nil] at ha
  rcases List.mem_map.mp ha with ⟨pr, hpr, rfl⟩
  obtain ⟨hmem, hlook⟩ := mem_pathPaired s s pr hpr
  have hself := lookupPath_self s hnd pr.1 hmem
  rw [hself] at hlook
  have h2 : pr.2 = pr.1 := by
    injection hlook with h
    exact h.symm
  unfold planPair
  rw [if_pos ⟨by rw [h2], by rw [h2]⟩]

/-- First record of the idempotence witness snapshot. -/
def recIdemA : FileRecord :=
  { relative_path := "a.txt", size_bytes := 5, modified_time := 100,
    is_directory := false, content_hash := none }

/-- Second record of the idempotence witness snapshot. -/
def recIdemB : FileRecord :=
  { relative_path := "b.txt", size_bytes := 7, modified_time := 200,
    is_directory := false, content_hash := none }

/-- Options for the idempotence witness. -/
def optsIdem : SyncOptions :=
  { local_path := "/sync", device_path := "/sdcard", direction := .LocalToRemote,
    recursive := true, delete_missing := true, match_mode := .ByPath }

/-- The Skip action the idempotence witness exhibits inside the converged
preview. -/
def actIdem : SyncAction :=
  { file_path := "a.txt", action_type := .Skip, direction := .LocalToRemote,
    size_bytes := 5, reason := "already in sync", rename_from := none }

/-- Witness for C7: a concrete two-file snapshot synced against itself, a
member action of the resulting preview, and the conclusion that it is a
Skip. -/
theorem plan_idempotent_witness : actIdem.action_type = ActionType.Skip :=
  plan_idempotent [recIdemA, recIdemB] optsIdem (by decide) actIdem (by decide)

end Engine
